import Mathlib

set_option maxRecDepth 100000

/-!
Shallow embedding of the proof-of-work difficulty code in src/src/pow.cpp
(GetNextWorkRequired, CalculateNextWorkRequired, CheckProofOfWork).

The repository excerpt contains only pow.cpp.  The 256-bit arithmetic type
(arith_uint256 with SetCompact/GetCompact), the chain index (CBlockIndex with
GetAncestor/GetBlockTime) and Consensus::Params with
DifficultyAdjustmentInterval are consumed through their interfaces only; those
parts are modelled from the specification (spec.md sections 3, 4.1 and 6):
targets are arbitrary-precision naturals, heights and timestamps are
unbounded integers.  C++ signed division and modulus truncate toward zero, so
they are rendered with Int.tdiv and Int.tmod.
-/

/-- Helper for the bit length of a natural number: fuel-bounded binary
recursion; with fuel at least the bit length it returns the number of binary
digits of m (0 for 0). -/
def bitsLenGo : Nat → Nat → Nat
  | 0, _ => 0
  | fuel + 1, m => if m = 0 then 0 else bitsLenGo fuel (m / 2) + 1

/-- Modelled from the spec: the bit count of a target value (arith_uint256
bits() is not part of the excerpt).  bitsLen n is the number of binary digits
of n; n itself is always sufficient fuel since the bit length of n never
exceeds n. -/
def bitsLen (n : Nat) : Nat := bitsLenGo n n

/-- Exponent byte of a compact target: the high-order byte of the 32-bit
encoding. -/
def compactExponent (nCompact : Nat) : Nat := nCompact / 2 ^ 24

/-- Mantissa of a compact target: the low-order 3 bytes, including the sign
bit (bit 23). -/
def compactMantissa (nCompact : Nat) : Nat := nCompact % 2 ^ 24

/-- Magnitude of the mantissa: the low-order 23 bits, the mantissa with its
sign bit cleared. -/
def compactMagnitude (nCompact : Nat) : Nat := nCompact % 2 ^ 23

/-- Modelled from the spec: decode of the compact encoding (SetCompact lives
in arith_uint256, outside the excerpt).  The value is
magnitude * 256 ^ (exponent - 3); for exponents at most 3 the mantissa is
scaled down instead (right shift by whole bytes).  The value is kept at full
precision, per the data model of the spec. -/
def decodeValue (nCompact : Nat) : Nat :=
  if compactExponent nCompact ≤ 3 then
    compactMagnitude nCompact / 256 ^ (3 - compactExponent nCompact)
  else
    compactMagnitude nCompact * 256 ^ (compactExponent nCompact - 3)

/-- Modelled from the spec: the negative flag of a compact decode is set when
the top bit of the 3-byte mantissa (the sign bit) is set. -/
def decodeNegative (nCompact : Nat) : Bool :=
  decide (2 ^ 23 ≤ compactMantissa nCompact)

/-- Modelled from the spec: the overflow flag of a compact decode is set when
the reconstructed magnitude exceeds the representable 256-bit width. -/
def decodeOverflow (nCompact : Nat) : Bool :=
  decide (2 ^ 256 ≤ decodeValue nCompact)

/-- Modelled from the spec: encode of the compact encoding (GetCompact lives
in arith_uint256, outside the excerpt).  The value is shifted into a 3-byte
mantissa whose byte count becomes the exponent; if the mantissa's top bit
would be set, it is shifted one more byte to keep the sign bit clear. -/
def encodeCompact (v : Nat) : Nat :=
  let nSize := (bitsLen v + 7) / 8
  let nCompact := if nSize ≤ 3 then v * 256 ^ (3 - nSize) else v / 256 ^ (nSize - 3)
  let nCompact2 := if 2 ^ 23 ≤ nCompact then nCompact / 256 else nCompact
  let nSize2 := if 2 ^ 23 ≤ nCompact then nSize + 1 else nSize
  nCompact2 + nSize2 * 2 ^ 24

/-- Consensus parameters consumed by pow.cpp (Consensus::Params).  The two
256-bit ceilings are carried as their numeric values. -/
structure Params where
  powLimit : Nat
  nPowTargetSpacing : Int
  nPowTargetTimespan : Int
  fPowAllowMinDifficultyBlocks : Bool
  fPowNoRetargeting : Bool
  BCDHeight : Int
  BCDBeginPowLimit : Nat

/-- Modelled from the spec: the standard adjustment interval is
target timespan divided by target spacing (Consensus::Params is outside the
excerpt); C++ signed division truncates toward zero. -/
def DifficultyAdjustmentInterval (params : Params) : Int :=
  params.nPowTargetTimespan.tdiv params.nPowTargetSpacing

/-- Per-node fields of a chain entry read by pow.cpp: height, block time
(GetBlockTime) and compact difficulty bits. -/
structure BlockData where
  nHeight : Int
  nTime : Int
  nBits : Nat

/-- A chain-index node (CBlockIndex): its own data plus the chain of
predecessors; genesis has no predecessor. -/
inductive BlockIndex where
  | genesis (d : BlockData)
  | node (d : BlockData) (prev : BlockIndex)

/-- Own data of a chain node. -/
def BlockIndex.data : BlockIndex → BlockData
  | .genesis d => d
  | .node d _ => d

/-- Height of a chain node. -/
def BlockIndex.nHeight (b : BlockIndex) : Int := b.data.nHeight

/-- Block time of a chain node (GetBlockTime). -/
def BlockIndex.nTime (b : BlockIndex) : Int := b.data.nTime

/-- Compact difficulty bits of a chain node. -/
def BlockIndex.nBits (b : BlockIndex) : Nat := b.data.nBits

/-- Immediate predecessor of a chain node (pprev), none at genesis. -/
def BlockIndex.pprev : BlockIndex → Option BlockIndex
  | .genesis _ => none
  | .node _ p => some p

/-- Modelled from the spec: the chain-index capability
ancestor_at(height) -> optional(node) (CBlockIndex::GetAncestor is outside
the excerpt), as a backward walk through predecessors until a node of the
requested height is reached. -/
def getAncestor : BlockIndex → Int → Option BlockIndex
  | .genesis d, h => if d.nHeight = h then some (.genesis d) else none
  | .node d p, h => if d.nHeight = h then some (.node d p) else getAncestor p h

/-- Era selection of the expected timespan in CalculateNextWorkRequired
(pow.cpp lines 75-82): post-fork windows expect 72 blocks of target spacing,
pre-fork windows expect the configured target timespan. -/
def eraPowTargetTimespan (lastHeight : Int) (params : Params) : Int :=
  if lastHeight + 1 > params.BCDHeight then 72 * params.nPowTargetSpacing
  else params.nPowTargetTimespan

/-- Era selection of the clamp factor in CalculateNextWorkRequired (pow.cpp
lines 75-82): 2 post-fork, 4 pre-fork. -/
def eraLimit (lastHeight : Int) (params : Params) : Int :=
  if lastHeight + 1 > params.BCDHeight then 2 else 4

/-- Clamp of the actual timespan (pow.cpp lines 84-89): raise to
timespan / limit, lower to timespan * limit, divisions truncating toward
zero. -/
def clampedTimespan (nActualTimespan powTargetTimespan limit : Int) : Int :=
  let t1 :=
    if nActualTimespan < powTargetTimespan.tdiv limit then powTargetTimespan.tdiv limit
    else nActualTimespan
  if t1 > powTargetTimespan * limit then powTargetTimespan * limit else t1

/-- CalculateNextWorkRequired (pow.cpp lines 70-108): no-retargeting bypass,
era-dependent clamp of the elapsed timespan, retarget
old * clamped / expected, cap at powLimit, re-encode.  The multiplication and
division are modelled from the spec as arbitrary-precision unsigned
arithmetic; the clamped timespan is nonnegative whenever the expected
timespan is positive, and is taken at 0 otherwise. -/
def CalculateNextWorkRequired (pindexLast : BlockIndex) (nFirstBlockTime : Int)
    (params : Params) : Nat :=
  if params.fPowNoRetargeting then pindexLast.nBits
  else
    let powTargetTimespan := eraPowTargetTimespan pindexLast.nHeight params
    let limit := eraLimit pindexLast.nHeight params
    let nActualTimespan := clampedTimespan (pindexLast.nTime - nFirstBlockTime) powTargetTimespan limit
    let bnNew := decodeValue pindexLast.nBits * nActualTimespan.toNat / powTargetTimespan.toNat
    let bnNew2 := if bnNew > params.powLimit then params.powLimit else bnNew
    encodeCompact bnNew2

/-- Era-relative height used for the interval test in GetNextWorkRequired
(pow.cpp lines 30-37). -/
def eraHeight (lastHeight : Int) (params : Params) : Int :=
  if lastHeight + 1 > params.BCDHeight then lastHeight + 1 - params.BCDHeight
  else lastHeight + 1

/-- Era-dependent adjustment interval used in GetNextWorkRequired (pow.cpp
lines 30-37): 72 post-fork, the standard interval pre-fork. -/
def eraInterval (lastHeight : Int) (params : Params) : Int :=
  if lastHeight + 1 > params.BCDHeight then 72 else DifficultyAdjustmentInterval params

/-- Backward walk of the minimum-difficulty special rule (pow.cpp lines
52-54): step to the predecessor while one exists, the current height is not a
standard-interval boundary and the current bits equal the compact-encoded
powLimit; the walk returns the node it stops at. -/
def minDifficultyAncestor (params : Params) (nProofOfWorkLimit : Nat) :
    BlockIndex → BlockIndex
  | .genesis d => .genesis d
  | .node d p =>
    if d.nHeight.tmod (DifficultyAdjustmentInterval params) ≠ 0 ∧ d.nBits = nProofOfWorkLimit then
      minDifficultyAncestor params nProofOfWorkLimit p
    else
      .node d p

/-- GetNextWorkRequired (pow.cpp lines 16-68).  The function asserts a
non-null previous node before the genesis null-check, so a missing previous
node is an invariant violation (result none) and the genesis branch of line
22 is unreachable; the assertions of lines 63 and 65 are likewise rendered
as none.  pblockTime is the candidate header's GetBlockTime(). -/
def GetNextWorkRequired (pindexLast : Option BlockIndex) (pblockTime : Int)
    (params : Params) : Option Nat :=
  match pindexLast with
  | none => none
  | some last =>
    let nProofOfWorkLimit := encodeCompact params.powLimit
    if last.nHeight + 1 = params.BCDHeight then some nProofOfWorkLimit
    else if last.nHeight + 1 = params.BCDHeight + 1 then
      some (encodeCompact params.BCDBeginPowLimit)
    else
      let height := eraHeight last.nHeight params
      let interval := eraInterval last.nHeight params
      if height.tmod interval ≠ 0 then
        if params.fPowAllowMinDifficultyBlocks then
          if pblockTime > last.nTime + params.nPowTargetSpacing * 2 then some nProofOfWorkLimit
          else some (minDifficultyAncestor params nProofOfWorkLimit last).nBits
        else some last.nBits
      else
        let nHeightFirst := last.nHeight - (interval - 1)
        if nHeightFirst < 0 then none
        else
          match getAncestor last nHeightFirst with
          | none => none
          | some pindexFirst => some (CalculateNextWorkRequired last pindexFirst.nTime params)

/-- CheckProofOfWork (pow.cpp lines 110-127): decode the compact bits, reject
negative, zero, overflowing or above-ceiling targets, then compare the hash
value against the target. -/
def CheckProofOfWork (hash : Nat) (nBits : Nat) (params : Params) : Bool :=
  if decodeNegative nBits || (decodeValue nBits == 0) || decodeOverflow nBits
      || decide (params.powLimit < decodeValue nBits) then false
  else if decide (decodeValue nBits < hash) then false
  else true

/-- Mainnet-style parameters used as concrete instances: powLimit with compact
encoding 0x1d00ffff, 10-minute spacing, 14-day timespan, the BCD fork height. -/
def mainnetParams : Params where
  powLimit := 65535 * 2 ^ 208
  nPowTargetSpacing := 600
  nPowTargetTimespan := 1209600
  fPowAllowMinDifficultyBlocks := false
  fPowNoRetargeting := false
  BCDHeight := 495866
  BCDBeginPowLimit := 65535 * 2 ^ 200

/-- Testnet-style parameters: as mainnet but permitting minimum-difficulty
blocks. -/
def testnetParams : Params where
  powLimit := 65535 * 2 ^ 208
  nPowTargetSpacing := 600
  nPowTargetTimespan := 1209600
  fPowAllowMinDifficultyBlocks := true
  fPowNoRetargeting := false
  BCDHeight := 495866
  BCDBeginPowLimit := 65535 * 2 ^ 200

theorem int_tdiv_le_self (a b : Int) (ha : 0 ≤ a) (hb : 0 ≤ b) : a.tdiv b ≤ a := by
  lift a to ℕ using ha
  lift b to ℕ using hb
  rw [show ((a : Int)).tdiv (b : Int) = ((a / b : Nat) : Int) from rfl]
  exact_mod_cast Nat.div_le_self a b

theorem eraLimit_pos (h : Int) (params : Params) : 0 < eraLimit h params := by
  unfold eraLimit
  split <;> norm_num

theorem clampedTimespan_le_cap (raw E L : Int) : clampedTimespan raw E L ≤ E * L := by
  simp only [clampedTimespan]
  split <;> split
  all_goals first
  | exact le_refl _
  | exact le_of_not_lt (by assumption)

theorem clampedTimespan_eq_floor (raw E L : Int) (hE : 0 < E) (hL : 0 < L)
    (h : raw ≤ E.tdiv L) : clampedTimespan raw E L = E.tdiv L := by
  have hfE : E.tdiv L ≤ E := int_tdiv_le_self E L (le_of_lt hE) (le_of_lt hL)
  have hEP : E ≤ E * L := le_mul_of_one_le_right (le_of_lt hE) hL
  simp only [clampedTimespan]
  rw [show (if raw < E.tdiv L then E.tdiv L else raw) = E.tdiv L from by split <;> omega]
  rw [if_neg (by omega)]

theorem clampedTimespan_eq_cap (raw E L : Int) (hE : 0 < E) (hL : 0 < L)
    (h : E * L ≤ raw) : clampedTimespan raw E L = E * L := by
  have hfE : E.tdiv L ≤ E := int_tdiv_le_self E L (le_of_lt hE) (le_of_lt hL)
  have hEP : E ≤ E * L := le_mul_of_one_le_right (le_of_lt hE) hL
  simp only [clampedTimespan]
  rw [show (if raw < E.tdiv L then E.tdiv L else raw) = raw from by split <;> omega]
  split <;> omega

theorem decodeValue_lt_of_not_overflow (nBits : Nat) (h : decodeOverflow nBits = false) :
    decodeValue nBits < 2 ^ 256 := by
  have := of_decide_eq_false h
  omega

theorem checkProofOfWork_true_iff (hash nBits : Nat) (params : Params) :
    CheckProofOfWork hash nBits params = true ↔
      (decodeNegative nBits = false ∧ decodeValue nBits ≠ 0 ∧ decodeOverflow nBits = false
        ∧ decodeValue nBits ≤ params.powLimit ∧ hash ≤ decodeValue nBits) := by
  unfold CheckProofOfWork
  rcases hn : decodeNegative nBits <;> rcases ho : decodeOverflow nBits <;>
    simp [hn, ho] <;> omega

theorem minDifficultyAncestor_stops (params : Params) (plc : Nat) (b : BlockIndex) :
    (minDifficultyAncestor params plc b).pprev = none
    ∨ (minDifficultyAncestor params plc b).nHeight.tmod (DifficultyAdjustmentInterval params) = 0
    ∨ (minDifficultyAncestor params plc b).nBits ≠ plc := by
  induction b with
  | genesis d => left; rfl
  | node d p ih =>
    rw [minDifficultyAncestor]
    split
    · exact ih
    · next h =>
      rw [Decidable.not_and_iff_or_not, not_ne_iff] at h
      rcases h with h | h
      · right; left; exact h
      · right; right; exact h

/-- Claim C1: check_proof_of_work decodes the bits and returns false when the
decoded target is negative, zero, overflowing or above powLimit; otherwise it
returns true exactly when the hash value is at most the decoded target; a
hash equal to a valid target passes, the successor value fails, and an
overflowing encoding fails for every hash. -/
theorem check_proof_of_work_correct (hash nBits : Nat) (params : Params) :
    (CheckProofOfWork hash nBits params = true ↔
      (decodeNegative nBits = false ∧ decodeValue nBits ≠ 0 ∧ decodeOverflow nBits = false
        ∧ decodeValue nBits ≤ params.powLimit ∧ hash ≤ decodeValue nBits))
    ∧ (decodeOverflow nBits = true → CheckProofOfWork hash nBits params = false)
    ∧ ((decodeNegative nBits = false ∧ decodeValue nBits ≠ 0 ∧ decodeOverflow nBits = false
        ∧ decodeValue nBits ≤ params.powLimit) →
      CheckProofOfWork (decodeValue nBits) nBits params = true
      ∧ CheckProofOfWork (decodeValue nBits + 1) nBits params = false) := by
  refine ⟨checkProofOfWork_true_iff hash nBits params, ?_, ?_⟩
  · intro hov
    cases hC : CheckProofOfWork hash nBits params with
    | false => rfl
    | true =>
      have h := (checkProofOfWork_true_iff hash nBits params).mp hC
      rw [hov] at h
      exact absurd h.2.2.1 (by simp)
  · rintro ⟨h1, h2, h3, h4⟩
    constructor
    · exact (checkProofOfWork_true_iff _ nBits params).mpr ⟨h1, h2, h3, h4, le_refl _⟩
    · cases hC : CheckProofOfWork (decodeValue nBits + 1) nBits params with
      | false => rfl
      | true =>
        have h := (checkProofOfWork_true_iff _ nBits params).mp hC
        omega

/-- Claim C1 witness: with the mainnet compact ceiling 0x1d00ffff, a hash
equal to the decoded target passes and its successor fails. -/
theorem check_proof_of_work_correct_witness :
    CheckProofOfWork (decodeValue 486604799) 486604799 mainnetParams = true
    ∧ CheckProofOfWork (decodeValue 486604799 + 1) 486604799 mainnetParams = false := by
  exact (check_proof_of_work_correct 0 486604799 mainnetParams).2.2 (by decide)

/-- Claim C4 (amended): a call of get_next_work_required with no previous
node violates the non-null assertion at the top of the function and surfaces
an invariant violation instead of returning a compact value; the genesis
return of the encoded powLimit on the following line is unreachable dead
code. -/
theorem getNextWork_null_prev_invariant_violation (pblockTime : Int) (params : Params) :
    GetNextWorkRequired none pblockTime params = none := rfl

/-- Claim C4 counterexample: at a concrete genesis call (no previous node)
the function does not return the encoded powLimit, contrary to the claim. -/
theorem getNextWork_genesis_claim_fails :
    GetNextWorkRequired none 1296688602 mainnetParams
      ≠ some (encodeCompact mainnetParams.powLimit) := by decide

/-- Claim C6: at the fork activation height the result is the encoded
powLimit, and one block later it is the encoded fork initial ceiling,
regardless of interval position, timestamps or the minimum-difficulty
flag. -/
theorem getNextWork_fork_boundary (last : BlockIndex) (pblockTime : Int) (params : Params) :
    (last.nHeight + 1 = params.BCDHeight →
      GetNextWorkRequired (some last) pblockTime params = some (encodeCompact params.powLimit))
    ∧ (last.nHeight + 1 = params.BCDHeight + 1 →
      GetNextWorkRequired (some last) pblockTime params
        = some (encodeCompact params.BCDBeginPowLimit)) := by
  constructor
  · intro h
    simp [GetNextWorkRequired, h]
  · intro h
    have h2 : ¬(params.BCDHeight + 1 = params.BCDHeight) := by omega
    simp [GetNextWorkRequired, h, h2]

/-- Claim C6 witness: concrete nodes at the two BCD fork boundary heights. -/
theorem getNextWork_fork_boundary_witness :
    GetNextWorkRequired (some (.genesis ⟨495865, 1512000000, 402690497⟩)) 1512000600 mainnetParams
      = some (encodeCompact mainnetParams.powLimit)
    ∧ GetNextWorkRequired (some (.genesis ⟨495866, 1512000000, 402690497⟩)) 1512000600 mainnetParams
      = some (encodeCompact mainnetParams.BCDBeginPowLimit) := by
  exact ⟨(getNextWork_fork_boundary _ 1512000600 mainnetParams).1 (by decide),
    (getNextWork_fork_boundary _ 1512000600 mainnetParams).2 (by decide)⟩

/-- Claim C8: away from the fork boundaries, at an era-relative height that
is not a multiple of the active interval and with minimum-difficulty blocks
disallowed, the previous node's bits are returned unchanged. -/
theorem getNextWork_nonboundary_reuse (last : BlockIndex) (pblockTime : Int) (params : Params)
    (hflag : params.fPowAllowMinDifficultyBlocks = false)
    (hb1 : last.nHeight + 1 ≠ params.BCDHeight)
    (hb2 : last.nHeight + 1 ≠ params.BCDHeight + 1)
    (hmod : (eraHeight last.nHeight params).tmod (eraInterval last.nHeight params) ≠ 0) :
    GetNextWorkRequired (some last) pblockTime params = some last.nBits := by
  simp [GetNextWorkRequired, hb1, hb2, hmod, hflag]

/-- Claim C8 witness: a post-fork node at era-relative height 9 with the
mainnet parameters keeps its bits. -/
theorem getNextWork_nonboundary_reuse_witness :
    GetNextWorkRequired (some (.genesis ⟨495874, 1512001000, 402690497⟩)) 1512001600 mainnetParams
      = some 402690497 := by
  exact getNextWork_nonboundary_reuse _ 1512001600 mainnetParams
    (by decide) (by decide) (by decide) (by decide)

/-- Claim C10: with minimum-difficulty blocks disallowed the result never
depends on the candidate block's timestamp. -/
theorem getNextWork_time_independent (pindexLast : Option BlockIndex) (t1 t2 : Int)
    (params : Params) (hflag : params.fPowAllowMinDifficultyBlocks = false) :
    GetNextWorkRequired pindexLast t1 params = GetNextWorkRequired pindexLast t2 params := by
  cases pindexLast with
  | none => rfl
  | some last => simp [GetNextWorkRequired, hflag]

/-- Claim C10 witness: two candidate timestamps far apart give the same
result on a concrete mainnet node. -/
theorem getNextWork_time_independent_witness :
    GetNextWorkRequired (some (.genesis ⟨2013, 1209600, 486604799⟩)) 0 mainnetParams
      = GetNextWorkRequired (some (.genesis ⟨2013, 1209600, 486604799⟩)) 999999999 mainnetParams := by
  exact getNextWork_time_independent _ 0 999999999 mainnetParams (by decide)

/-- Claim C7: at a non-boundary height with minimum-difficulty blocks allowed
and no stall (candidate time within twice the spacing), the function walks
backward while a predecessor exists, the height is not a standard-interval
boundary and the bits equal the encoded powLimit, and returns the bits of
the node it stops at; the stopping node fails one of the three walk
conditions. -/
theorem getNextWork_min_difficulty_walk (last : BlockIndex) (pblockTime : Int) (params : Params)
    (hflag : params.fPowAllowMinDifficultyBlocks = true)
    (hb1 : last.nHeight + 1 ≠ params.BCDHeight)
    (hb2 : last.nHeight + 1 ≠ params.BCDHeight + 1)
    (hmod : (eraHeight last.nHeight params).tmod (eraInterval last.nHeight params) ≠ 0)
    (hgap : pblockTime ≤ last.nTime + params.nPowTargetSpacing * 2) :
    GetNextWorkRequired (some last) pblockTime params
      = some (minDifficultyAncestor params (encodeCompact params.powLimit) last).nBits
    ∧ ((minDifficultyAncestor params (encodeCompact params.powLimit) last).pprev = none
      ∨ (minDifficultyAncestor params (encodeCompact params.powLimit) last).nHeight.tmod
          (DifficultyAdjustmentInterval params) = 0
      ∨ (minDifficultyAncestor params (encodeCompact params.powLimit) last).nBits
          ≠ encodeCompact params.powLimit) := by
  refine ⟨?_, minDifficultyAncestor_stops params _ last⟩
  have hgap2 : ¬(pblockTime > last.nTime + params.nPowTargetSpacing * 2) := not_lt.mpr hgap
  simp [GetNextWorkRequired, hb1, hb2, hmod, hflag, hgap2]

/-- Claim C7 witness: on the testnet-style parameters a run of two
minimum-difficulty blocks is skipped and the earlier real difficulty
0x18040443 is returned. -/
theorem getNextWork_min_difficulty_walk_witness :
    GetNextWorkRequired
      (some (.node ⟨495874, 1512001000, 486604799⟩
        (.node ⟨495873, 1512000400, 486604799⟩ (.genesis ⟨495872, 1512000000, 403178563⟩))))
      1512001500 testnetParams
      = some 403178563 := by
  exact (getNextWork_min_difficulty_walk _ 1512001500 testnetParams
    (by decide) (by decide) (by decide) (by decide) (by decide)).1

theorem calc_eq_encode_min (last : BlockIndex) (ft : Int) (params : Params)
    (hnr : params.fPowNoRetargeting = false) :
    CalculateNextWorkRequired last ft params
      = encodeCompact (min (decodeValue last.nBits
          * (clampedTimespan (last.nTime - ft) (eraPowTargetTimespan last.nHeight params)
              (eraLimit last.nHeight params)).toNat
          / (eraPowTargetTimespan last.nHeight params).toNat) params.powLimit) := by
  simp [CalculateNextWorkRequired, hnr]
  congr 1
  split <;> omega

/-- Claim C2: with retargeting enabled, the new target is the old target
scaled by the clamped timespan over the expected timespan (truncating
division), capped at powLimit and re-encoded; consequently a pre-fork window
100 times the expected timespan retargets exactly like one of 4 times the
expected timespan. -/
theorem calculate_next_work_retarget (last : BlockIndex) (ft : Int) (params : Params)
    (hnr : params.fPowNoRetargeting = false)
    (hE : 0 < eraPowTargetTimespan last.nHeight params) :
    CalculateNextWorkRequired last ft params
      = encodeCompact (min (decodeValue last.nBits
          * (clampedTimespan (last.nTime - ft) (eraPowTargetTimespan last.nHeight params)
              (eraLimit last.nHeight params)).toNat
          / (eraPowTargetTimespan last.nHeight params).toNat) params.powLimit)
    ∧ (last.nHeight + 1 ≤ params.BCDHeight →
      CalculateNextWorkRequired last (last.nTime - 100 * params.nPowTargetTimespan) params
        = CalculateNextWorkRequired last (last.nTime - 4 * params.nPowTargetTimespan) params) := by
  refine ⟨calc_eq_encode_min last ft params hnr, ?_⟩
  intro hpre
  have hEs : eraPowTargetTimespan last.nHeight params = params.nPowTargetTimespan := by
    unfold eraPowTargetTimespan
    rw [if_neg (by omega)]
  have hLs : eraLimit last.nHeight params = 4 := by
    unfold eraLimit
    rw [if_neg (by omega)]
  have hT : 0 < params.nPowTargetTimespan := by rw [hEs] at hE; exact hE
  rw [calc_eq_encode_min last _ params hnr, calc_eq_encode_min last _ params hnr]
  rw [hEs, hLs]
  rw [show last.nTime - (last.nTime - 100 * params.nPowTargetTimespan)
      = 100 * params.nPowTargetTimespan from by ring]
  rw [show last.nTime - (last.nTime - 4 * params.nPowTargetTimespan)
      = 4 * params.nPowTargetTimespan from by ring]
  rw [clampedTimespan_eq_cap _ _ _ hT (by norm_num) (by omega),
    clampedTimespan_eq_cap _ _ _ hT (by norm_num) (by omega)]

/-- Claim C2 witness: concretely, a pre-fork window 100 times the expected
two weeks retargets the same as a window of exactly four times the expected
timespan. -/
theorem calculate_next_work_retarget_witness :
    CalculateNextWorkRequired (.genesis ⟨2015, 1514764800, 453248203⟩)
        ((BlockIndex.genesis ⟨2015, 1514764800, 453248203⟩).nTime
          - 100 * mainnetParams.nPowTargetTimespan) mainnetParams
      = CalculateNextWorkRequired (.genesis ⟨2015, 1514764800, 453248203⟩)
        ((BlockIndex.genesis ⟨2015, 1514764800, 453248203⟩).nTime
          - 4 * mainnetParams.nPowTargetTimespan) mainnetParams := by
  exact (calculate_next_work_retarget (.genesis ⟨2015, 1514764800, 453248203⟩) 0 mainnetParams
    (by decide) (by decide)).2 (by decide)

/-- Claim C9: with a positive expected timespan the calculation is total for
every first-block timestamp; a zero or negative raw timespan is clamped up to
expected / clamp_factor and gives the same compact result as a raw timespan
of exactly expected / clamp_factor. -/
theorem calculate_total_nonpositive_timespan (last : BlockIndex) (ft : Int) (params : Params)
    (hE : 0 < eraPowTargetTimespan last.nHeight params)
    (hraw : last.nTime - ft ≤ 0) :
    clampedTimespan (last.nTime - ft) (eraPowTargetTimespan last.nHeight params)
        (eraLimit last.nHeight params)
      = (eraPowTargetTimespan last.nHeight params).tdiv (eraLimit last.nHeight params)
    ∧ CalculateNextWorkRequired last ft params
      = CalculateNextWorkRequired last
          (last.nTime - (eraPowTargetTimespan last.nHeight params).tdiv
            (eraLimit last.nHeight params)) params := by
  have hL : 0 < eraLimit last.nHeight params := eraLimit_pos last.nHeight params
  have hf0 : 0 ≤ (eraPowTargetTimespan last.nHeight params).tdiv (eraLimit last.nHeight params) :=
    Int.tdiv_nonneg (le_of_lt hE) (le_of_lt hL)
  have hc1 : clampedTimespan (last.nTime - ft) (eraPowTargetTimespan last.nHeight params)
      (eraLimit last.nHeight params)
      = (eraPowTargetTimespan last.nHeight params).tdiv (eraLimit last.nHeight params) :=
    clampedTimespan_eq_floor _ _ _ hE hL (by omega)
  refine ⟨hc1, ?_⟩
  cases hnr : params.fPowNoRetargeting with
  | true => simp [CalculateNextWorkRequired, hnr]
  | false =>
    rw [calc_eq_encode_min last ft params hnr, calc_eq_encode_min last _ params hnr]
    rw [hc1]
    rw [show last.nTime - (last.nTime - (eraPowTargetTimespan last.nHeight params).tdiv
        (eraLimit last.nHeight params))
      = (eraPowTargetTimespan last.nHeight params).tdiv (eraLimit last.nHeight params) from by ring]
    rw [clampedTimespan_eq_floor _ _ _ hE hL (le_refl _)]

/-- Claim C9 witness: a first-block timestamp 4000 seconds after the last
block's timestamp is handled and retargets like a raw timespan of exactly
the expected timespan over the clamp factor. -/
theorem calculate_total_nonpositive_timespan_witness :
    CalculateNextWorkRequired (.genesis ⟨2015, 1000, 453248203⟩) 5000 mainnetParams
      = CalculateNextWorkRequired (.genesis ⟨2015, 1000, 453248203⟩)
          ((BlockIndex.genesis ⟨2015, 1000, 453248203⟩).nTime
            - (eraPowTargetTimespan (BlockIndex.genesis ⟨2015, 1000, 453248203⟩).nHeight
                mainnetParams).tdiv
              (eraLimit (BlockIndex.genesis ⟨2015, 1000, 453248203⟩).nHeight mainnetParams))
          mainnetParams := by
  exact (calculate_total_nonpositive_timespan (.genesis ⟨2015, 1000, 453248203⟩) 5000
    mainnetParams (by decide) (by decide)).2

/-- Claim C3: for every old target decoding without overflow and every
clamped timespan drawn from an expected timespan in the 64-bit range, the
intermediate product stays below 2 ^ 320 (a width safely exceeding 256 bits)
and the multiply-then-divide step is the exact truncated quotient. -/
theorem calculate_product_no_overflow (nBits : Nat) (raw E L : Int)
    (hdec : decodeOverflow nBits = false)
    (hE : 0 < E) (hL : 0 < L)
    (hrange : E * L ≤ 2 ^ 63) :
    decodeValue nBits * (clampedTimespan raw E L).toNat < 2 ^ 320
    ∧ E.toNat * (decodeValue nBits * (clampedTimespan raw E L).toNat / E.toNat)
        ≤ decodeValue nBits * (clampedTimespan raw E L).toNat
    ∧ decodeValue nBits * (clampedTimespan raw E L).toNat
        < E.toNat * (decodeValue nBits * (clampedTimespan raw E L).toNat / E.toNat + 1) := by
  have hv : decodeValue nBits < 2 ^ 256 := decodeValue_lt_of_not_overflow nBits hdec
  have hcle : clampedTimespan raw E L ≤ E * L := clampedTimespan_le_cap raw E L
  have hcN : (clampedTimespan raw E L).toNat ≤ 2 ^ 63 := by omega
  have hEN : 0 < E.toNat := by omega
  refine ⟨?_, ?_, ?_⟩
  · have h1 : decodeValue nBits * (clampedTimespan raw E L).toNat ≤ (2 ^ 256 - 1) * 2 ^ 63 :=
      Nat.mul_le_mul (by omega) hcN
    have h2 : ((2 : Nat) ^ 256 - 1) * 2 ^ 63 < 2 ^ 320 := by norm_num
    omega
  · calc E.toNat * (decodeValue nBits * (clampedTimespan raw E L).toNat / E.toNat)
        = (decodeValue nBits * (clampedTimespan raw E L).toNat / E.toNat) * E.toNat :=
          Nat.mul_comm _ _
      _ ≤ decodeValue nBits * (clampedTimespan raw E L).toNat :=
          Nat.div_mul_le_self _ _
  · rw [Nat.mul_add, Nat.mul_one]
    have h1 := Nat.div_add_mod (decodeValue nBits * (clampedTimespan raw E L).toNat) E.toNat
    have h2 : decodeValue nBits * (clampedTimespan raw E L).toNat % E.toNat < E.toNat :=
      Nat.mod_lt _ hEN
    omega

/-- Claim C3 witness: the mainnet-scale instance with old bits 0x1b0404cb and
a half-expected window. -/
theorem calculate_product_no_overflow_witness :
    decodeOverflow 453248203 = false
    ∧ decodeValue 453248203 * (clampedTimespan 604800 1209600 4).toNat < 2 ^ 320 := by
  exact ⟨by decide, (calculate_product_no_overflow 453248203 604800 1209600 4
    (by decide) (by decide) (by decide) (by decide)).1⟩

/-- Claim C5 (amended): check_proof_of_work rejects every compact value whose
decode is negative, zero, overflowing or above powLimit; but
calculate_next_work_required performs no such validation: for every previous
bits value, malformed ones included, it computes a new target from the raw
decoded value, only capping results above powLimit. -/
theorem compact_validation_asymmetry :
    (∀ hash nBits : Nat, ∀ params : Params,
      (decodeNegative nBits = true ∨ decodeValue nBits = 0 ∨ decodeOverflow nBits = true
        ∨ params.powLimit < decodeValue nBits) →
      CheckProofOfWork hash nBits params = false)
    ∧ (∀ (last : BlockIndex) (ft : Int) (params : Params),
      params.fPowNoRetargeting = false →
      CalculateNextWorkRequired last ft params
        = encodeCompact (min (decodeValue last.nBits
            * (clampedTimespan (last.nTime - ft) (eraPowTargetTimespan last.nHeight params)
                (eraLimit last.nHeight params)).toNat
            / (eraPowTargetTimespan last.nHeight params).toNat) params.powLimit)) := by
  constructor
  · intro hash nBits params h
    cases hC : CheckProofOfWork hash nBits params with
    | false => rfl
    | true =>
      have hh := (checkProofOfWork_true_iff hash nBits params).mp hC
      rcases h with h | h | h | h
      · rw [h] at hh
        exact absurd hh.1 (by simp)
      · exact absurd h hh.2.1
      · rw [h] at hh
        exact absurd hh.2.2.1 (by simp)
      · exact absurd hh.2.2.2.1 (not_le.mpr h)
  · intro last ft params hnr
    exact calc_eq_encode_min last ft params hnr

/-- Claim C5 witness: the negative-decoding bits 0x03800001 are rejected by
the verifier, while the calculator still computes from them. -/
theorem compact_validation_asymmetry_witness :
    CheckProofOfWork 0 58720257 mainnetParams = false
    ∧ CalculateNextWorkRequired (.genesis ⟨2015, 1209600, 58720257⟩) 0 mainnetParams
      = encodeCompact (min (decodeValue (BlockIndex.genesis ⟨2015, 1209600, 58720257⟩).nBits
          * (clampedTimespan ((BlockIndex.genesis ⟨2015, 1209600, 58720257⟩).nTime - 0)
              (eraPowTargetTimespan (BlockIndex.genesis ⟨2015, 1209600, 58720257⟩).nHeight
                mainnetParams)
              (eraLimit (BlockIndex.genesis ⟨2015, 1209600, 58720257⟩).nHeight
                mainnetParams)).toNat
          / (eraPowTargetTimespan (BlockIndex.genesis ⟨2015, 1209600, 58720257⟩).nHeight
              mainnetParams).toNat) mainnetParams.powLimit) := by
  exact ⟨compact_validation_asymmetry.1 0 58720257 mainnetParams (Or.inl (by decide)),
    compact_validation_asymmetry.2 (.genesis ⟨2015, 1209600, 58720257⟩) 0 mainnetParams
      (by decide)⟩

/-- Claim C5 counterexample: the previous bits 0x03800001 decode with the
negative flag set — invalid under the range invariant, which demands
rejection by every consumer — yet calculate_next_work_required consumes them
and returns the computed compact 0x01010000 rather than rejecting the
input. -/
theorem calculate_accepts_invalid_compact :
    decodeNegative 58720257 = true
    ∧ CalculateNextWorkRequired (.genesis ⟨2015, 1209601, 58720257⟩) 1 mainnetParams
      = 16842752 := by
  exact ⟨by decide, by decide⟩
